import Mathlib

/-!
Shallow embedding of the Thing-creation page of the TwinScale admin console
(`CreateTwinScaleThing` component): form state, identifier normalisation,
DTDL auto-fill, and the YAML preview projections, together with proofs of
the specified properties.

JavaScript strings are modelled as Lean `String` (a list of characters);
`String.toLowerCase` is modelled per-character by `Char.toLower` (the ASCII
case mapping), `Array.prototype.join` by `String.intercalate`, and
`String.prototype.split(':')` by an explicit single-character splitter.
-/

/-- One property row of the form state (`formData.properties` entries). -/
structure PropertyDef where
  name : String
  type : String
  description : String
  writable : Bool
  unit : String
  minimum : Option Float
  maximum : Option Float

/-- One relationship row of the form state. -/
structure RelationshipDef where
  name : String
  target_interface : String
  description : String

/-- One command row of the form state. -/
structure CommandDef where
  name : String
  description : String

/-- One entry of `propertyDetails` / `telemetryDetails` / `commandDetails`
in a DTDL interface summary; optional fields model absent JS object keys. -/
structure DTDLDetail where
  name : String
  type : Option String
  description : Option String
  writable : Option Bool
  unit : Option String

/-- The DTDL interface summary bound to the draft (`dtdl_interface_summary`). -/
structure DTDLSummary where
  telemetryCount : Nat
  propertyCount : Nat
  commandCount : Nat
  componentCount : Nat
  propertyDetails : Option (List DTDLDetail)
  telemetryDetails : Option (List DTDLDetail)
  commandDetails : Option (List DTDLDetail)

/-- The selected DTDL interface reference (`dtdl_interface`). -/
structure DTDLInterfaceRef where
  dtmi : String
  displayName : String
  description : String

/-- The tenant context (`currentTenant` from the tenant store). -/
structure Tenant where
  tenant_id : String
  name : String

/-- The form state of the creation page (`formData` in `CreateTwinScaleThing`). -/
structure FormData where
  id : String
  name : String
  description : String
  properties : List PropertyDef
  relationships : List RelationshipDef
  commands : List CommandDef
  include_service_spec : Bool
  store_in_rdf : Bool
  latitude : Float
  longitude : Float
  thing_type : String
  manufacturer : String
  model : String
  serial_number : String
  firmware_version : String
  dtdl_interface : Option DTDLInterfaceRef
  dtdl_interface_summary : Option DTDLSummary

/-- The initial form state passed to `useState` in the component. -/
def initialFormData : FormData where
  id := ""
  name := ""
  description := ""
  properties := []
  relationships := []
  commands := []
  include_service_spec := true
  store_in_rdf := true
  latitude := 39.9334
  longitude := 32.8597
  thing_type := "device"
  manufacturer := ""
  model := ""
  serial_number := ""
  firmware_version := ""
  dtdl_interface := none
  dtdl_interface_summary := none

/-! ## Identifier normaliser

Source (lines 86-90 of the component):
`const cleanId = formData.id.includes(':') ? formData.id.split(':')[1] : formData.id`
`const normalizedId = cleanId.toLowerCase().replace(/[^a-z0-9-]/g, '-')`
-/

/-- JavaScript `String.prototype.split` with a one-character separator,
on the character list of the string: splits at every occurrence of the
separator, keeping empty segments.  The result is always non-empty. -/
def splitCh (sep : Char) : List Char → List (List Char)
  | [] => [[]]
  | c :: t =>
    match splitCh sep t with
    | [] => [[]]
    | h :: r => if c = sep then [] :: h :: r else (c :: h) :: r

/-- Source expression `formData.id.includes(':') ? formData.id.split(':')[1] : formData.id`:
the clean id is the second field of the colon-split when a colon is present,
the raw id unchanged otherwise. -/
def cleanIdOf (raw : String) : String :=
  if raw.data.contains ':' then String.mk ((splitCh ':' raw.data).getD 1 [])
  else raw

/-- Whether a character belongs to the slug alphabet `[a-z0-9-]`
(the complement of the regex `[^a-z0-9-]`). -/
def isSlugChar (c : Char) : Bool :=
  decide ('a' ≤ c ∧ c ≤ 'z') || decide ('0' ≤ c ∧ c ≤ '9') || c == '-'

/-- Source expression `cleanId.toLowerCase().replace(/[^a-z0-9-]/g, '-')`: lowercase every
character, then replace each character outside `[a-z0-9-]` by `'-'`. -/
def slugOf (cleanId : String) : String :=
  String.mk ((cleanId.data.map Char.toLower).map
    (fun c => if isSlugChar c then c else '-'))

/-- The `normalizedId` of the component: slug of the clean id of the raw id. -/
def normalizedIdOf (raw : String) : String :=
  slugOf (cleanIdOf raw)

/-- The spec's `normalize(rawId) -> { cleanId, slug }` contract, assembled
from the two source expressions. -/
structure NormalizeResult where
  cleanId : String
  slug : String

/-- The spec's `normalize` (named `normalizeId` here because `normalize`
already exists in the ambient library): both derived fields of the raw id. -/
def normalizeId (raw : String) : NormalizeResult :=
  { cleanId := cleanIdOf raw, slug := normalizedIdOf raw }

example : normalizedIdOf "TempSensor01" = "tempsensor01" := by decide
example : cleanIdOf "a:b:c" = "b" := by decide
example : normalizedIdOf "!!!" = "---" := by decide

/-! ## YAML projection engine

Source: the `useEffect` of lines 83-155, which rebuilds `interfaceYaml` and
`instanceYaml` from `formData` and `currentTenant` whenever either changes.
Template-literal text is kept verbatim; `join('\n')` is `String.intercalate`.
-/

/-- The `labelsSection` array (lines 93-97): a `tenant:` line only when a
tenant is selected, then unconditionally a `thing-type:` line. -/
def labelsSectionOf (tenant : Option Tenant) (fd : FormData) : List String :=
  (match tenant with
   | some t => ["    tenant: " ++ t.tenant_id]
   | none => []) ++
  ["    thing-type: " ++ fd.thing_type]

/-- The `annotationsSection` array (lines 100-112): one quoted line per
non-empty field among manufacturer, model, serial_number, firmware_version,
in that order (JS truthiness on a string is non-emptiness). -/
def annotationsSectionOf (fd : FormData) : List String :=
  (if fd.manufacturer ≠ "" then ["    manufacturer: \"" ++ fd.manufacturer ++ "\""] else []) ++
  (if fd.model ≠ "" then ["    model: \"" ++ fd.model ++ "\""] else []) ++
  (if fd.serial_number ≠ "" then ["    serialNumber: \"" ++ fd.serial_number ++ "\""] else []) ++
  (if fd.firmware_version ≠ "" then ["    firmwareVersion: \"" ++ fd.firmware_version ++ "\""] else [])

/-- One rendered property entry of `spec.properties` (lines 124-127).
`p.description || ''` is the identity on a (defined) string, and
`p.writable || false` is the identity on a boolean, so both appear plain. -/
def propEntryOf (p : PropertyDef) : String :=
  "    - name: " ++ p.name ++
  "\n      type: " ++ p.type ++
  "\n      description: " ++ p.description ++
  "\n      x-writable: " ++ (if p.writable then "true" else "false")

/-- Source expression `formData.properties.map(...).join('\n') || '    []'`: the joined entry
block, or the literal `    []` line when the join is empty. -/
def propsBlockOf (props : List PropertyDef) : String :=
  let s := String.intercalate "\n" (props.map propEntryOf)
  if s = "" then "    []" else s

/-- One rendered relationship entry (lines 129-130): only `name` and
`interface` are emitted; the row's `description` is not rendered. -/
def relEntryOf (r : RelationshipDef) : String :=
  "    - name: " ++ r.name ++ "\n      interface: " ++ r.target_interface

/-- Source expression `formData.relationships.map(...).join('\n') || '    []'`. -/
def relsBlockOf (rels : List RelationshipDef) : String :=
  let s := String.intercalate "\n" (rels.map relEntryOf)
  if s = "" then "    []" else s

/-- One rendered command entry (lines 132-133). -/
def cmdEntryOf (c : CommandDef) : String :=
  "    - name: " ++ c.name ++ "\n      description: " ++ c.description

/-- Source expression `formData.commands.map(...).join('\n') || '    []'`. -/
def cmdsBlockOf (cmds : List CommandDef) : String :=
  let s := String.intercalate "\n" (cmds.map cmdEntryOf)
  if s = "" then "    []" else s

/-- The conditional annotations fragment of the Interface template:
`annotationsSection.length > 0 ? '\n  annotations:\n' + join : ''`. -/
def annotationsPartOf (fd : FormData) : String :=
  if (annotationsSectionOf fd).length > 0 then
    "\n  annotations:\n" ++ String.intercalate "\n" (annotationsSectionOf fd)
  else ""

/-- The `interfacePreview` template literal (lines 115-133), chunked at the
interpolation points. -/
def interfaceYamlOf (tenant : Option Tenant) (fd : FormData) : String :=
  "apiVersion: dtd.twinscale/v0\nkind: TwinInterface\nmetadata:\n  name: ems-iodt2-" ++
  normalizedIdOf fd.id ++
  "\n  labels:\n" ++
  String.intercalate "\n" (labelsSectionOf tenant fd) ++
  annotationsPartOf fd ++
  "\nspec:\n  name: ems-iodt2-" ++
  normalizedIdOf fd.id ++
  "\n" ++ "  properties:\n" ++
  propsBlockOf fd.properties ++
  "\n" ++ "  relationships:\n" ++
  relsBlockOf fd.relationships ++
  "\n" ++ "  commands:\n" ++
  cmdsBlockOf fd.commands

/-- The `instanceLabelsSection` array (lines 138-142): rebuilt separately
from the Interface's `labelsSection`, with the same construction. -/
def instanceLabelsSectionOf (tenant : Option Tenant) (fd : FormData) : List String :=
  (match tenant with
   | some t => ["    tenant: " ++ t.tenant_id]
   | none => []) ++
  ["    thing-type: " ++ fd.thing_type]

/-- The Instance YAML template literal (lines 144-153). -/
def instanceYamlOf (tenant : Option Tenant) (fd : FormData) : String :=
  "apiVersion: dtd.twinscale/v0\nkind: TwinInstance\nmetadata:\n  name: ems-iodt2-" ++
  normalizedIdOf fd.id ++
  "\n  labels:\n" ++
  String.intercalate "\n" (instanceLabelsSectionOf tenant fd) ++
  "\nspec:\n  name: ems-iodt2-" ++
  normalizedIdOf fd.id ++
  "\n  interface: ems-iodt2-" ++
  normalizedIdOf fd.id ++
  "\n  twinInstanceRelationships: []"

/-! ## DTDL auto-fill (`handleAutoFillFromDTDL`, lines 240-283) -/

/-- JavaScript `o || dflt` on an optional string: the default when the field
is absent or the empty string (both falsy), the value otherwise. -/
def jsOrStr (o : Option String) (dflt : String) : String :=
  match o with
  | none => dflt
  | some s => if s = "" then dflt else s

/-- The property mapped from one `propertyDetails` entry (lines 246-254):
`type || 'string'`, `description || ''`, `writable ?? true` (nullish
coalescing: absent defaults to true, an explicit boolean is kept),
`unit || ''`, bounds left null. -/
def propFromDetail (d : DTDLDetail) : PropertyDef where
  name := d.name
  type := jsOrStr d.type "string"
  description := jsOrStr d.description ""
  writable := d.writable.getD true
  unit := jsOrStr d.unit ""
  minimum := none
  maximum := none

/-- The property mapped from one `telemetryDetails` entry (lines 257-265):
`type || 'float'` and `writable` forced to `false`. -/
def telFromDetail (d : DTDLDetail) : PropertyDef where
  name := d.name
  type := jsOrStr d.type "float"
  description := jsOrStr d.description ""
  writable := false
  unit := jsOrStr d.unit ""
  minimum := none
  maximum := none

/-- The command mapped from one `commandDetails` entry (lines 268-271). -/
def cmdFromDetail (d : DTDLDetail) : CommandDef where
  name := d.name
  description := jsOrStr d.description ""

/-- Source expression `summary.propertyDetails?.map(...) || []`. -/
def dtdlPropertiesOf (s : DTDLSummary) : List PropertyDef :=
  (s.propertyDetails.map (List.map propFromDetail)).getD []

/-- Source expression `summary.telemetryDetails?.map(...) || []`. -/
def dtdlTelemetryOf (s : DTDLSummary) : List PropertyDef :=
  (s.telemetryDetails.map (List.map telFromDetail)).getD []

/-- Source expression `summary.commandDetails?.map(...) || []`. -/
def dtdlCommandsOf (s : DTDLSummary) : List CommandDef :=
  (s.commandDetails.map (List.map cmdFromDetail)).getD []

/-- The handler `handleAutoFillFromDTDL`: a no-op returning no toast when no summary is
bound (`if (!formData.dtdl_interface_summary) return`); otherwise appends
the derived properties, telemetry and commands onto the draft's lists and
produces the success-toast description. -/
def handleAutoFillFromDTDL (fd : FormData) : FormData × Option String :=
  match fd.dtdl_interface_summary with
  | none => (fd, none)
  | some summary =>
    let dtdlProperties := dtdlPropertiesOf summary
    let dtdlTelemetry := dtdlTelemetryOf summary
    let dtdlCommands := dtdlCommandsOf summary
    ({ fd with
        properties := fd.properties ++ dtdlProperties ++ dtdlTelemetry,
        commands := fd.commands ++ dtdlCommands },
     some ("Auto-filled " ++ toString dtdlProperties.length ++ " properties, " ++
           toString dtdlTelemetry.length ++ " telemetry, " ++
           toString dtdlCommands.length ++ " commands from DTDL interface"))

/-- The form state after one auto-fill invocation. -/
def autoFillState (fd : FormData) : FormData :=
  (handleAutoFillFromDTDL fd).1

/-! ## Creation-page state machine

State: `formData` plus the two YAML preview strings (both `useState('')`).
After every form edit the preview `useEffect` (lines 83-155) runs; it
recomputes the previews only when both `formData.id` and `formData.name`
are truthy and leaves them untouched otherwise.
-/

/-- The visible state of the creation page. -/
structure PageState where
  formData : FormData
  interfaceYaml : String
  instanceYaml : String

/-- The initial page state: initial form, empty preview strings. -/
def initialPageState : PageState where
  formData := initialFormData
  interfaceYaml := ""
  instanceYaml := ""

/-- Form-editing events of the creation page (each a `setFormData` call). -/
inductive PageEvent where
  | setId (v : String)
  | setName (v : String)
  | setThingType (v : String)
  | setManufacturer (v : String)
  | autoFill

/-- Apply one event to the form state (the `setFormData` updates; `setId`
models `handleIdChange`, whose both branches store the typed value). -/
def applyEvent (e : PageEvent) (s : PageState) : PageState :=
  match e with
  | .setId v => { s with formData := { s.formData with id := v } }
  | .setName v => { s with formData := { s.formData with name := v } }
  | .setThingType v => { s with formData := { s.formData with thing_type := v } }
  | .setManufacturer v => { s with formData := { s.formData with manufacturer := v } }
  | .autoFill => { s with formData := autoFillState s.formData }

/-- The preview `useEffect`: when `formData.id && formData.name` (both
non-empty) it stores both freshly rendered previews, otherwise it does
nothing — in particular it never clears a previously stored preview. -/
def applyYamlEffect (tenant : Option Tenant) (s : PageState) : PageState :=
  if s.formData.id ≠ "" ∧ s.formData.name ≠ "" then
    { s with
        interfaceYaml := interfaceYamlOf tenant s.formData,
        instanceYaml := instanceYamlOf tenant s.formData }
  else s

/-- One page step: the event's state update followed by the reactive
preview effect (the effect re-runs on every `formData` change). -/
def stepPage (tenant : Option Tenant) (s : PageState) (e : PageEvent) : PageState :=
  applyYamlEffect tenant (applyEvent e s)

/-- Run a sequence of events from a state. -/
def runPage (tenant : Option Tenant) (s : PageState) : List PageEvent → PageState
  | [] => s
  | e :: t => runPage tenant (stepPage tenant s e) t

/-- All states visited while running a sequence of events (the start state
and every state after a step), in order. -/
def pageTrace (tenant : Option Tenant) (s : PageState) : List PageEvent → List PageState
  | [] => [s]
  | e :: t => s :: pageTrace tenant (stepPage tenant s e) t

/-- The canonical resource name: the fixed deployment prefix `ems-iodt2-`
followed by the slug of the draft's id. -/
def canonicalNameOf (fd : FormData) : String :=
  "ems-iodt2-" ++ normalizedIdOf fd.id

/-- The annotations block as the spec words it: of the four key/value pairs
`manufacturer`, `model`, `serialNumber` (from `serial_number`),
`firmwareVersion` (from `firmware_version`), in that fixed order, keep
exactly those whose value is non-empty and render each as an indented,
double-quoted line.  Used to compare the source-translated
`annotationsSectionOf` against the spec's description. -/
def specAnnotationLines (fd : FormData) : List String :=
  (([("manufacturer", fd.manufacturer), ("model", fd.model),
     ("serialNumber", fd.serial_number), ("firmwareVersion", fd.firmware_version)]).filter
    (fun kv => kv.2 != "")).map
    (fun kv => "    " ++ kv.1 ++ ": \"" ++ kv.2 ++ "\"")

/-- A concrete DTDL summary with one property, one telemetry and one
command entry, used to instantiate the auto-fill theorems. -/
def sampleSummary : DTDLSummary where
  telemetryCount := 1
  propertyCount := 1
  commandCount := 1
  componentCount := 0
  propertyDetails := some [{ name := "p", type := some "string",
                             description := none, writable := none, unit := none }]
  telemetryDetails := some [{ name := "t", type := none,
                              description := none, writable := some true, unit := none }]
  commandDetails := some [{ name := "c", type := none,
                            description := none, writable := none, unit := none }]

/-- The initial draft with the sample summary bound. -/
def sampleDraft : FormData :=
  { initialFormData with dtdl_interface_summary := some sampleSummary }

/-- An event sequence that generates a preview and then clears the id:
type an id, type a name (the effect now renders both previews), then
clear the id again. -/
def clearIdEvents : List PageEvent :=
  [PageEvent.setId "a", PageEvent.setName "b", PageEvent.setId ""]

/-! ## Helper lemmas -/

/-- The single-character splitter never returns an empty list of segments. -/
theorem splitCh_ne_nil (sep : Char) (l : List Char) : splitCh sep l ≠ [] := by
  induction l with
  | nil => simp [splitCh]
  | cons c t ih =>
    simp only [splitCh]
    cases h : splitCh sep t with
    | nil => simp
    | cons hd r =>
      by_cases hc : c = sep <;> simp [hc]

/-- The first segment of the split is the longest separator-free prefix. -/
theorem splitCh_cons_head (sep : Char) (b : List Char) :
    ∃ r, splitCh sep b = b.takeWhile (fun c => c != sep) :: r := by
  induction b with
  | nil => exact ⟨[], rfl⟩
  | cons c t ih =>
    obtain ⟨r, hr⟩ := ih
    by_cases hc : c = sep
    · subst hc
      exact ⟨t.takeWhile (fun x => x != c) :: r, by simp [splitCh, hr]⟩
    · exact ⟨r, by simp [splitCh, hr, hc]⟩

/-- Splitting a list whose prefix is separator-free: the prefix becomes the
first segment and the rest is split recursively. -/
theorem splitCh_append_of_not_mem (sep : Char) (a b : List Char) (ha : sep ∉ a) :
    splitCh sep (a ++ sep :: b) = a :: splitCh sep b := by
  induction a with
  | nil =>
    cases h : splitCh sep b with
    | nil => exact absurd h (splitCh_ne_nil sep b)
    | cons hd r => simp [splitCh, h]
  | cons c t ih =>
    rw [List.mem_cons] at ha
    push_neg at ha
    obtain ⟨h1, ht⟩ := ha
    have hc : c ≠ sep := fun e => h1 e.symm
    simp only [List.cons_append, splitCh, List.append_eq]
    rw [ih ht]
    simp [hc]

/-! ## Claim theorems -/

set_option maxRecDepth 10000 in
/-- C1: for the draft with id `TempSensor01`, name `Office Temp`, thing
type `sensor` and the single property `temperature` (type `float`, empty
description, writable, unit `C`), under tenant `acme`, the Interface YAML
projection produces the expected document: `metadata.name` (line 3) and
`spec.name` (line 8) both equal `ems-iodt2-tempsensor01`, the labels block
is exactly the line `tenant: acme` followed by `thing-type: sensor`, and
`spec.properties` holds exactly one entry with name `temperature`, type
`float` and `x-writable: true`. -/
theorem c1_interface_end_to_end :
    interfaceYamlOf (some { tenant_id := "acme", name := "Acme" })
        { initialFormData with
            id := "TempSensor01",
            name := "Office Temp",
            thing_type := "sensor",
            properties := [{ name := "temperature", type := "float",
                             description := "", writable := true, unit := "C",
                             minimum := none, maximum := none }] }
      = "apiVersion: dtd.twinscale/v0\nkind: TwinInterface\nmetadata:\n  name: ems-iodt2-tempsensor01\n  labels:\n    tenant: acme\n    thing-type: sensor\nspec:\n  name: ems-iodt2-tempsensor01\n  properties:\n    - name: temperature\n      type: float\n      description: \n      x-writable: true\n  relationships:\n    []\n  commands:\n    []"
    ∧ (splitCh '\n' (interfaceYamlOf (some { tenant_id := "acme", name := "Acme" })
        { initialFormData with
            id := "TempSensor01",
            name := "Office Temp",
            thing_type := "sensor",
            properties := [{ name := "temperature", type := "float",
                             description := "", writable := true, unit := "C",
                             minimum := none, maximum := none }] }).data).map String.mk
      = ["apiVersion: dtd.twinscale/v0",
         "kind: TwinInterface",
         "metadata:",
         "  name: ems-iodt2-tempsensor01",
         "  labels:",
         "    tenant: acme",
         "    thing-type: sensor",
         "spec:",
         "  name: ems-iodt2-tempsensor01",
         "  properties:",
         "    - name: temperature",
         "      type: float",
         "      description: ",
         "      x-writable: true",
         "  relationships:",
         "    []",
         "  commands:",
         "    []"] := by
  exact ⟨by decide, by decide⟩

/-- C2: for every raw id, the derived slug contains only characters from
`[a-z0-9-]`, is exactly as long as the clean id (characters are replaced
one-for-one, never dropped), the empty string yields the empty slug, and
`"!!!"` yields `"---"`; the derivation is a total function. -/
theorem c2_slug_totality (raw : String) :
    (normalizeId raw).slug.data.all isSlugChar = true
    ∧ (normalizeId raw).slug.length = (normalizeId raw).cleanId.length
    ∧ (normalizeId "").slug = ""
    ∧ (normalizeId "!!!").slug = "---" := by
  refine ⟨?_, ?_, by decide, by decide⟩
  · have hdata : (normalizeId raw).slug.data
        = ((cleanIdOf raw).data.map Char.toLower).map
            (fun c => if isSlugChar c then c else '-') := rfl
    rw [hdata, List.all_map, List.all_map]
    rw [List.all_eq_true]
    intro x _
    show isSlugChar (if isSlugChar (Char.toLower x) then Char.toLower x else '-') = true
    by_cases h : isSlugChar (Char.toLower x) = true
    · rw [if_pos h]
      exact h
    · rw [if_neg h]
      decide
  · show (((cleanIdOf raw).data.map Char.toLower).map
        (fun c => if isSlugChar c then c else '-')).length = (cleanIdOf raw).data.length
    simp [List.length_map]

/-- C3 counterexample: the claim predicts that for an input with several
colons the clean id is the entire remainder after the first colon, so
`"a:b:c"` would give `"b:c"`; the code's `split(':')[1]` gives `"b"`. -/
theorem c3_clean_id_counterexample :
    cleanIdOf "a:b:c" = "b" ∧ cleanIdOf "a:b:c" ≠ "b:c" := by
  exact ⟨by decide, by decide⟩

/-- C3 (amended): for every rawId without a colon, cleanId is rawId
unchanged; for every rawId containing a colon, cleanId is the second field
of the colon split, i.e. the (possibly empty) colon-free segment directly
after the first colon, which is everything after the first colon exactly
when the input has a single colon (so `normalize("foo:bar").cleanId = "bar"`),
but stops at the second colon for inputs with several colons. -/
theorem c3_clean_id_amended :
    (∀ raw : String, (':' : Char) ∉ raw.data → cleanIdOf raw = raw)
    ∧ ∀ (a b : List Char), ':' ∉ a →
        cleanIdOf (String.mk (a ++ ':' :: b))
          = String.mk (b.takeWhile (fun c => c != ':')) := by
  constructor
  · intro raw h
    simp [cleanIdOf, h]
  · intro a b ha
    have hmem : (':' : Char) ∈ a ++ ':' :: b :=
      List.mem_append_right a (List.mem_cons_self ':' b)
    have hc : (a ++ ':' :: b).contains ':' = true :=
      List.elem_eq_true_of_mem hmem
    have hd : (String.mk (a ++ ':' :: b)).data = a ++ ':' :: b := rfl
    simp only [cleanIdOf, hd, hc, if_true]
    rw [splitCh_append_of_not_mem ':' a b ha]
    obtain ⟨r, hr⟩ := splitCh_cons_head ':' b
    rw [hr]
    rfl

/-- Witness for C3 (amended): instantiated at `"foo" ++ ":" ++ "bar"`,
giving `cleanIdOf "foo:bar" = "bar"`, and at the colon-free `"bar"`. -/
theorem c3_clean_id_amended_witness :
    ((':' : Char) ∉ "foo".data
      ∧ cleanIdOf (String.mk ("foo".data ++ ':' :: "bar".data))
          = String.mk ("bar".data.takeWhile (fun c => c != ':')))
    ∧ ((':' : Char) ∉ "bar".data ∧ cleanIdOf "bar" = "bar") := by
  refine ⟨⟨by decide, c3_clean_id_amended.2 "foo".data "bar".data (by decide)⟩,
          by decide, c3_clean_id_amended.1 "bar" (by decide)⟩

/-- C10 (implicit): when no DTDL interface summary is bound, the auto-fill
handler is a complete no-op — the whole form state is returned unchanged
(properties, commands and every other field) and no success toast is
produced. -/
theorem c10_autofill_noop_without_summary (fd : FormData)
    (h : fd.dtdl_interface_summary = none) :
    handleAutoFillFromDTDL fd = (fd, none) := by
  simp [handleAutoFillFromDTDL, h]

/-- Witness for C10: the initial form state has no bound summary and
auto-fill leaves it untouched with no toast. -/
theorem c10_autofill_noop_without_summary_witness :
    initialFormData.dtdl_interface_summary = none
    ∧ handleAutoFillFromDTDL initialFormData = (initialFormData, none) :=
  ⟨rfl, c10_autofill_noop_without_summary initialFormData rfl⟩

/-- C4: auto-fill appends onto the draft's existing sequences and never
deduplicates: with a summary bound, one invocation grows `properties` by
the number of derived property and telemetry entries, and a second
invocation on the result (same summary still bound) grows it by the same
amount again — after two calls the derived entries appear twice.  The
commands list likewise grows by the derived command count on each call. -/
theorem c4_autofill_additive (fd : FormData) (s : DTDLSummary)
    (h : fd.dtdl_interface_summary = some s) :
    (autoFillState fd).properties.length
      = fd.properties.length
        + ((dtdlPropertiesOf s).length + (dtdlTelemetryOf s).length)
    ∧ (autoFillState (autoFillState fd)).properties.length
      = (autoFillState fd).properties.length
        + ((dtdlPropertiesOf s).length + (dtdlTelemetryOf s).length)
    ∧ (autoFillState (autoFillState fd)).commands.length
      = (autoFillState fd).commands.length + (dtdlCommandsOf s).length := by
  have hstep : ∀ g : FormData, g.dtdl_interface_summary = some s →
      autoFillState g
        = { g with
              properties := g.properties ++ dtdlPropertiesOf s ++ dtdlTelemetryOf s,
              commands := g.commands ++ dtdlCommandsOf s } := by
    intro g hg
    simp [autoFillState, handleAutoFillFromDTDL, hg]
  have h1 := hstep fd h
  have h2 : (autoFillState fd).dtdl_interface_summary = some s := by
    rw [h1]
    exact h
  have h3 := hstep (autoFillState fd) h2
  refine ⟨?_, ?_, ?_⟩
  · rw [h1]
    simp [List.length_append, Nat.add_assoc]
  · rw [h3]
    simp [List.length_append, Nat.add_assoc]
  · rw [h3]
    simp [List.length_append]

/-- Witness for C4: at the sample draft with the sample summary bound, the
two auto-fill invocations grow the sequences by the derived counts. -/
theorem c4_autofill_additive_witness :
    sampleDraft.dtdl_interface_summary = some sampleSummary
    ∧ ((autoFillState sampleDraft).properties.length
        = sampleDraft.properties.length
          + ((dtdlPropertiesOf sampleSummary).length + (dtdlTelemetryOf sampleSummary).length)
      ∧ (autoFillState (autoFillState sampleDraft)).properties.length
        = (autoFillState sampleDraft).properties.length
          + ((dtdlPropertiesOf sampleSummary).length + (dtdlTelemetryOf sampleSummary).length)
      ∧ (autoFillState (autoFillState sampleDraft)).commands.length
        = (autoFillState sampleDraft).commands.length + (dtdlCommandsOf sampleSummary).length) :=
  ⟨rfl, c4_autofill_additive sampleDraft sampleSummary rfl⟩

/-- C5: in the auto-fill mapper, an entry derived from `propertyDetails`
gets `writable = true` when the source field is absent and the source value
when it is explicitly given (explicit `false` stays `false`), while every
entry derived from `telemetryDetails` gets `writable = false`
unconditionally, whatever the source entry's writable field holds. -/
theorem c5_writable_semantics (s : DTDLSummary) :
    (dtdlPropertiesOf s).map PropertyDef.writable
      = (s.propertyDetails.getD []).map
          (fun d => match d.writable with | none => true | some b => b)
    ∧ (dtdlTelemetryOf s).all (fun p => !p.writable) = true := by
  constructor
  · cases hp : s.propertyDetails with
    | none => simp [dtdlPropertiesOf, hp]
    | some l =>
      have hfun : (PropertyDef.writable ∘ propFromDetail)
          = (fun d : DTDLDetail => match d.writable with | none => true | some b => b) := by
        funext d
        cases hw : d.writable <;> simp [propFromDetail, Function.comp, hw, Option.getD]
      simp only [dtdlPropertiesOf, hp, Option.map_some', Option.getD_some]
      rw [List.map_map, hfun]
  · cases ht : s.telemetryDetails with
    | none => simp [dtdlTelemetryOf, ht]
    | some l =>
      simp only [dtdlTelemetryOf, ht, Option.map_some', Option.getD_some]
      rw [List.all_eq_true]
      intro x hx
      obtain ⟨d, _, rfl⟩ := List.mem_map.mp hx
      rfl

/-- C6: for a draft with an empty properties, relationships or commands
list, the Interface YAML still contains the corresponding key with the
literal empty-sequence marker `[]` on the following line; the key is
never omitted. -/
theorem c6_empty_list_rendering (tenant : Option Tenant) (fd : FormData) :
    (fd.properties = [] → ∃ pre post,
        interfaceYamlOf tenant fd = pre ++ ("  properties:\n" ++ "    []") ++ post)
    ∧ (fd.relationships = [] → ∃ pre post,
        interfaceYamlOf tenant fd = pre ++ ("  relationships:\n" ++ "    []") ++ post)
    ∧ (fd.commands = [] → ∃ pre,
        interfaceYamlOf tenant fd = pre ++ ("  commands:\n" ++ "    []")) := by
  refine ⟨?_, ?_, ?_⟩
  · intro h
    have hb : propsBlockOf fd.properties = "    []" := by rw [h]; rfl
    refine ⟨"apiVersion: dtd.twinscale/v0\nkind: TwinInterface\nmetadata:\n  name: ems-iodt2-"
        ++ normalizedIdOf fd.id ++ "\n  labels:\n"
        ++ String.intercalate "\n" (labelsSectionOf tenant fd)
        ++ annotationsPartOf fd
        ++ "\nspec:\n  name: ems-iodt2-" ++ normalizedIdOf fd.id ++ "\n",
      "\n" ++ "  relationships:\n" ++ relsBlockOf fd.relationships
        ++ "\n" ++ "  commands:\n" ++ cmdsBlockOf fd.commands, ?_⟩
    simp only [interfaceYamlOf, hb, String.append_assoc]
  · intro h
    have hb : relsBlockOf fd.relationships = "    []" := by rw [h]; rfl
    refine ⟨"apiVersion: dtd.twinscale/v0\nkind: TwinInterface\nmetadata:\n  name: ems-iodt2-"
        ++ normalizedIdOf fd.id ++ "\n  labels:\n"
        ++ String.intercalate "\n" (labelsSectionOf tenant fd)
        ++ annotationsPartOf fd
        ++ "\nspec:\n  name: ems-iodt2-" ++ normalizedIdOf fd.id ++ "\n"
        ++ "  properties:\n" ++ propsBlockOf fd.properties ++ "\n",
      "\n" ++ "  commands:\n" ++ cmdsBlockOf fd.commands, ?_⟩
    simp only [interfaceYamlOf, hb, String.append_assoc]
  · intro h
    have hb : cmdsBlockOf fd.commands = "    []" := by rw [h]; rfl
    refine ⟨"apiVersion: dtd.twinscale/v0\nkind: TwinInterface\nmetadata:\n  name: ems-iodt2-"
        ++ normalizedIdOf fd.id ++ "\n  labels:\n"
        ++ String.intercalate "\n" (labelsSectionOf tenant fd)
        ++ annotationsPartOf fd
        ++ "\nspec:\n  name: ems-iodt2-" ++ normalizedIdOf fd.id ++ "\n"
        ++ "  properties:\n" ++ propsBlockOf fd.properties ++ "\n"
        ++ "  relationships:\n" ++ relsBlockOf fd.relationships ++ "\n", ?_⟩
    simp only [interfaceYamlOf, hb, String.append_assoc]

/-- Witness for C6: the initial draft has all three lists empty, so all
three keys render with the `[]` marker. -/
theorem c6_empty_list_rendering_witness :
    (∃ pre post, interfaceYamlOf none initialFormData
        = pre ++ ("  properties:\n" ++ "    []") ++ post)
    ∧ (∃ pre post, interfaceYamlOf none initialFormData
        = pre ++ ("  relationships:\n" ++ "    []") ++ post)
    ∧ (∃ pre, interfaceYamlOf none initialFormData
        = pre ++ ("  commands:\n" ++ "    []")) := by
  have h := c6_empty_list_rendering none initialFormData
  exact ⟨h.1 rfl, h.2.1 rfl, h.2.2 rfl⟩

/-- C7: the annotations block of the Interface YAML consists, in the fixed
order manufacturer, model, serialNumber (from `serial_number`),
firmwareVersion (from `firmware_version`), of exactly those fields whose
draft value is non-empty, each double-quoted (first conjunct, against the
spec-side reading `specAnnotationLines`); when all four fields are empty
the rendered document contains no annotations key at all (second
conjunct); when at least one field is non-empty the document carries the
`  annotations:` key followed by exactly those lines (third conjunct). -/
theorem c7_annotations_block (tenant : Option Tenant) (fd : FormData) :
    annotationsSectionOf fd = specAnnotationLines fd
    ∧ (fd.manufacturer = "" → fd.model = "" → fd.serial_number = "" →
        fd.firmware_version = "" →
        interfaceYamlOf tenant fd
          = "apiVersion: dtd.twinscale/v0\nkind: TwinInterface\nmetadata:\n  name: ems-iodt2-"
            ++ normalizedIdOf fd.id ++ "\n  labels:\n"
            ++ String.intercalate "\n" (labelsSectionOf tenant fd)
            ++ "\nspec:\n  name: ems-iodt2-" ++ normalizedIdOf fd.id ++ "\n"
            ++ "  properties:\n" ++ propsBlockOf fd.properties
            ++ "\n" ++ "  relationships:\n" ++ relsBlockOf fd.relationships
            ++ "\n" ++ "  commands:\n" ++ cmdsBlockOf fd.commands)
    ∧ (annotationsSectionOf fd ≠ [] → ∃ pre post,
        interfaceYamlOf tenant fd
          = pre ++ ("\n  annotations:\n"
              ++ String.intercalate "\n" (annotationsSectionOf fd))
            ++ ("\nspec:" ++ post)) := by
  refine ⟨?_, ?_, ?_⟩
  · by_cases h1 : fd.manufacturer = "" <;> by_cases h2 : fd.model = "" <;>
      by_cases h3 : fd.serial_number = "" <;> by_cases h4 : fd.firmware_version = "" <;>
      simp [annotationsSectionOf, specAnnotationLines, h1, h2, h3, h4]
  · intro h1 h2 h3 h4
    have hs : annotationsSectionOf fd = [] := by
      simp [annotationsSectionOf, h1, h2, h3, h4]
    have hp : annotationsPartOf fd = "" := by
      simp [annotationsPartOf, hs]
    simp only [interfaceYamlOf, hp, String.append_empty, String.empty_append,
      String.append_assoc]
  · intro h
    have hp : annotationsPartOf fd
        = "\n  annotations:\n" ++ String.intercalate "\n" (annotationsSectionOf fd) := by
      unfold annotationsPartOf
      rw [if_pos (List.length_pos.mpr h)]
    refine ⟨"apiVersion: dtd.twinscale/v0\nkind: TwinInterface\nmetadata:\n  name: ems-iodt2-"
        ++ normalizedIdOf fd.id ++ "\n  labels:\n"
        ++ String.intercalate "\n" (labelsSectionOf tenant fd),
      "\n  name: ems-iodt2-" ++ normalizedIdOf fd.id ++ "\n"
        ++ "  properties:\n" ++ propsBlockOf fd.properties
        ++ "\n" ++ "  relationships:\n" ++ relsBlockOf fd.relationships
        ++ "\n" ++ "  commands:\n" ++ cmdsBlockOf fd.commands, ?_⟩
    have hsplit : ("\nspec:\n  name: ems-iodt2-" : String)
        = "\nspec:" ++ "\n  name: ems-iodt2-" := rfl
    simp only [interfaceYamlOf, hp, hsplit, String.append_assoc]

/-- Witness for C7: a draft with every metadata field empty renders with no
annotations key, and a draft with only a manufacturer renders the
annotations key with that single quoted line. -/
theorem c7_annotations_block_witness :
    interfaceYamlOf none initialFormData
      = "apiVersion: dtd.twinscale/v0\nkind: TwinInterface\nmetadata:\n  name: ems-iodt2-"
        ++ normalizedIdOf initialFormData.id ++ "\n  labels:\n"
        ++ String.intercalate "\n" (labelsSectionOf none initialFormData)
        ++ "\nspec:\n  name: ems-iodt2-" ++ normalizedIdOf initialFormData.id ++ "\n"
        ++ "  properties:\n" ++ propsBlockOf initialFormData.properties
        ++ "\n" ++ "  relationships:\n" ++ relsBlockOf initialFormData.relationships
        ++ "\n" ++ "  commands:\n" ++ cmdsBlockOf initialFormData.commands
    ∧ (annotationsSectionOf { initialFormData with manufacturer := "ACME" } ≠ []
      ∧ ∃ pre post,
          interfaceYamlOf none { initialFormData with manufacturer := "ACME" }
            = pre ++ ("\n  annotations:\n"
                ++ String.intercalate "\n"
                    (annotationsSectionOf { initialFormData with manufacturer := "ACME" }))
              ++ ("\nspec:" ++ post)) := by
  have hne : annotationsSectionOf { initialFormData with manufacturer := "ACME" } ≠ [] := by
    decide
  exact ⟨(c7_annotations_block none initialFormData).2.1 rfl rfl rfl rfl,
         hne, (c7_annotations_block none { initialFormData with manufacturer := "ACME" }).2.2 hne⟩

/-- C8: for every draft with non-empty id and name, the Instance YAML sets
`metadata.name`, `spec.name` and `spec.interface` all to the same
canonical name `ems-iodt2-` + slug, sets
`spec.twinInstanceRelationships` to the empty list, and builds its labels
block with content identical to the Interface YAML's labels block. -/
theorem c8_instance_projection (tenant : Option Tenant) (fd : FormData)
    (hid : fd.id ≠ "") (hname : fd.name ≠ "") :
    instanceYamlOf tenant fd
      = "apiVersion: dtd.twinscale/v0\nkind: TwinInstance\nmetadata:\n  name: "
        ++ canonicalNameOf fd ++ "\n  labels:\n"
        ++ String.intercalate "\n" (labelsSectionOf tenant fd)
        ++ "\nspec:\n  name: " ++ canonicalNameOf fd
        ++ "\n  interface: " ++ canonicalNameOf fd
        ++ "\n  twinInstanceRelationships: []"
    ∧ instanceLabelsSectionOf tenant fd = labelsSectionOf tenant fd := by
  constructor
  · have hm : ("apiVersion: dtd.twinscale/v0\nkind: TwinInstance\nmetadata:\n  name: ems-iodt2-" : String)
        = "apiVersion: dtd.twinscale/v0\nkind: TwinInstance\nmetadata:\n  name: " ++ "ems-iodt2-" := rfl
    have hn : ("\nspec:\n  name: ems-iodt2-" : String)
        = "\nspec:\n  name: " ++ "ems-iodt2-" := rfl
    have hi : ("\n  interface: ems-iodt2-" : String)
        = "\n  interface: " ++ "ems-iodt2-" := rfl
    simp only [instanceYamlOf, canonicalNameOf, hm, hn, hi, String.append_assoc]
    rfl
  · rfl

/-- Witness for C8: instantiated at a draft with id `x`, name `y` and a
selected tenant `t`. -/
theorem c8_instance_projection_witness :
    (({ initialFormData with id := "x", name := "y" } : FormData).id ≠ ""
      ∧ ({ initialFormData with id := "x", name := "y" } : FormData).name ≠ "")
    ∧ (instanceYamlOf (some { tenant_id := "t", name := "T" })
          { initialFormData with id := "x", name := "y" }
        = "apiVersion: dtd.twinscale/v0\nkind: TwinInstance\nmetadata:\n  name: "
          ++ canonicalNameOf { initialFormData with id := "x", name := "y" }
          ++ "\n  labels:\n"
          ++ String.intercalate "\n"
              (labelsSectionOf (some { tenant_id := "t", name := "T" })
                { initialFormData with id := "x", name := "y" })
          ++ "\nspec:\n  name: " ++ canonicalNameOf { initialFormData with id := "x", name := "y" }
          ++ "\n  interface: " ++ canonicalNameOf { initialFormData with id := "x", name := "y" }
          ++ "\n  twinInstanceRelationships: []"
      ∧ instanceLabelsSectionOf (some { tenant_id := "t", name := "T" })
            { initialFormData with id := "x", name := "y" }
          = labelsSectionOf (some { tenant_id := "t", name := "T" })
              { initialFormData with id := "x", name := "y" }) :=
  ⟨⟨by decide, by decide⟩,
   c8_instance_projection (some { tenant_id := "t", name := "T" })
     { initialFormData with id := "x", name := "y" } (by decide) (by decide)⟩

/-- Every form-editing event leaves the stored preview strings untouched
(only the reactive effect may change them). -/
theorem applyEvent_preserves_yaml (e : PageEvent) (s : PageState) :
    (applyEvent e s).interfaceYaml = s.interfaceYaml
    ∧ (applyEvent e s).instanceYaml = s.instanceYaml := by
  cases e <;> exact ⟨rfl, rfl⟩

/-- The preview effect never changes the form state. -/
theorem applyYamlEffect_formData (tenant : Option Tenant) (s : PageState) :
    (applyYamlEffect tenant s).formData = s.formData := by
  unfold applyYamlEffect
  split <;> rfl

/-- When the id or the name is empty, the preview effect does nothing. -/
theorem applyYamlEffect_skip (tenant : Option Tenant) (s : PageState)
    (h : s.formData.id = "" ∨ s.formData.name = "") :
    applyYamlEffect tenant s = s := by
  unfold applyYamlEffect
  rw [if_neg]
  rintro ⟨h1, h2⟩
  cases h with
  | inl h => exact h1 h
  | inr h => exact h2 h

/-- A page trace always starts with its start state. -/
theorem pageTrace_cons (tenant : Option Tenant) (s : PageState) (evs : List PageEvent) :
    ∃ r, pageTrace tenant s evs = s :: r := by
  cases evs <;> exact ⟨_, rfl⟩

/-- Along any run whose every visited state has an empty id or an empty
name, the preview strings stay whatever they started as empty. -/
theorem runPage_empty_aux (tenant : Option Tenant) :
    ∀ (evs : List PageEvent) (s : PageState),
      s.interfaceYaml = "" → s.instanceYaml = "" →
      (pageTrace tenant s evs).all
        (fun st => st.formData.id == "" || st.formData.name == "") = true →
      (runPage tenant s evs).interfaceYaml = ""
      ∧ (runPage tenant s evs).instanceYaml = "" := by
  intro evs
  induction evs with
  | nil =>
    intro s h1 h2 _
    exact ⟨h1, h2⟩
  | cons e t ih =>
    intro s h1 h2 hall
    simp only [pageTrace, List.all_cons, Bool.and_eq_true] at hall
    obtain ⟨_, hrest⟩ := hall
    obtain ⟨r, hr⟩ := pageTrace_cons tenant (stepPage tenant s e) t
    rw [hr] at hrest
    simp only [List.all_cons, Bool.and_eq_true] at hrest
    obtain ⟨hs1, hrest'⟩ := hrest
    have hfd : (stepPage tenant s e).formData = (applyEvent e s).formData :=
      applyYamlEffect_formData tenant (applyEvent e s)
    rw [Bool.or_eq_true, beq_iff_eq, beq_iff_eq, hfd] at hs1
    have hstep : stepPage tenant s e = applyEvent e s :=
      applyYamlEffect_skip tenant (applyEvent e s) hs1
    have hy := applyEvent_preserves_yaml e s
    have h1' : (stepPage tenant s e).interfaceYaml = "" := by
      rw [hstep, hy.1]
      exact h1
    have h2' : (stepPage tenant s e).instanceYaml = "" := by
      rw [hstep, hy.2]
      exact h2
    have hall' : (pageTrace tenant (stepPage tenant s e) t).all
        (fun st => st.formData.id == "" || st.formData.name == "") = true := by
      rw [hr]
      simp only [List.all_cons, Bool.and_eq_true]
      refine ⟨?_, hrest'⟩
      rw [Bool.or_eq_true, beq_iff_eq, beq_iff_eq, hfd]
      exact hs1
    exact ih (stepPage tenant s e) h1' h2' hall'

/-- C9 counterexample: after typing an id and a name (which generates a
preview) and then clearing the id, the page is in a reachable state whose
draft id is empty while both displayed YAML strings are still the
previously generated, non-empty documents — the claim that the strings are
empty in every such state is false. -/
theorem c9_preview_counterexample :
    (runPage none initialPageState clearIdEvents).formData.id = ""
    ∧ (runPage none initialPageState clearIdEvents).interfaceYaml ≠ ""
    ∧ (runPage none initialPageState clearIdEvents).instanceYaml ≠ "" := by
  exact ⟨by decide, by decide, by decide⟩

/-- C9 (amended): the preview-recomputation step skips invoking the
projection whenever the draft's id or name is empty, leaving the stored
preview strings untouched; consequently the displayed YAML strings are
empty in every state reached without ever having both id and name
non-empty simultaneously.  A state reached by clearing id or name after a
preview was generated instead retains the stale preview. -/
theorem c9_preview_guard_amended (tenant : Option Tenant) :
    (∀ s : PageState, (s.formData.id = "" ∨ s.formData.name = "") →
        applyYamlEffect tenant s = s)
    ∧ ∀ evs : List PageEvent,
        (pageTrace tenant initialPageState evs).all
          (fun st => st.formData.id == "" || st.formData.name == "") = true →
        (runPage tenant initialPageState evs).interfaceYaml = ""
        ∧ (runPage tenant initialPageState evs).instanceYaml = "" :=
  ⟨fun s h => applyYamlEffect_skip tenant s h,
   fun evs hall => runPage_empty_aux tenant evs initialPageState rfl rfl hall⟩

/-- Witness for C9 (amended): at the initial state (empty id) the effect is
the identity, and along the run that only sets a name the previews stay
empty. -/
theorem c9_preview_guard_amended_witness :
    (initialPageState.formData.id = "" ∨ initialPageState.formData.name = "")
    ∧ applyYamlEffect none initialPageState = initialPageState
    ∧ (pageTrace none initialPageState [PageEvent.setName "x"]).all
        (fun st => st.formData.id == "" || st.formData.name == "") = true
    ∧ (runPage none initialPageState [PageEvent.setName "x"]).interfaceYaml = ""
    ∧ (runPage none initialPageState [PageEvent.setName "x"]).instanceYaml = "" := by
  have hall : (pageTrace none initialPageState [PageEvent.setName "x"]).all
      (fun st => st.formData.id == "" || st.formData.name == "") = true := by decide
  have h := (c9_preview_guard_amended none).2 [PageEvent.setName "x"] hall
  exact ⟨Or.inl rfl, (c9_preview_guard_amended none).1 initialPageState (Or.inl rfl),
         hall, h.1, h.2⟩
